import Mathlib

/-!
Verification of the agents-mcp process-orchestration core against its
specification. The definitions below are a shallow embedding of the
compiled sources under src/dist (agents.js, cli.js): timestamps are
modelled as milliseconds (`Nat`), the per-agent log file as the list of
its trimmed non-empty lines (each represented by its parse outcome), OS
process liveness as a boolean oracle per pid, and file-system effects
(meta writes, directory creation/removal) as explicit traces.
-/

namespace AgentsMcp

/-- Agent kinds (source: `AgentType` in parsers.d.ts / agents.js). -/
inductive AgentType where
  | codex
  | gemini
  | cursor
  | claude
  | opencode
  | copilot
deriving DecidableEq, Repr

/-- In-memory agent status (source: the `AgentStatus` string enum). -/
inductive AgentStatus where
  | running
  | completed
  | failed
  | stopped
deriving DecidableEq, Repr

/-- String value of each enum member, as written by `saveMeta`. -/
def AgentStatus.toStr : AgentStatus → String
  | .running => "running"
  | .completed => "completed"
  | .failed => "failed"
  | .stopped => "stopped"

/-- Lookup on the compiled `AgentStatus` enum object. The TypeScript string
enum compiles to an object with exactly the upper-case keys `RUNNING`,
`COMPLETED`, `FAILED`, `STOPPED` (string enums get no reverse mapping), so
`AgentStatus[key]` is defined only for those four keys. -/
def agentStatusEnumLookup (key : String) : Option String :=
  if key = "RUNNING" then some "running"
  else if key = "COMPLETED" then some "completed"
  else if key = "FAILED" then some "failed"
  else if key = "STOPPED" then some "stopped"
  else none

/-- Interpret a status string as the in-memory status value. Every value
produced by `agentStatusEnumLookup` is one of the four enum strings. -/
def statusOfStr (s : String) : AgentStatus :=
  if s = "completed" then .completed
  else if s = "failed" then .failed
  else if s = "stopped" then .stopped
  else .running

/-- Execution modes (source: `VALID_MODES = ['plan', 'edit', 'ralph']`). -/
inductive Mode where
  | plan
  | edit
  | ralph
deriving DecidableEq, Repr

/-- String value of a mode, as written by `saveMeta`. -/
def Mode.toStr : Mode → String
  | .plan => "plan"
  | .edit => "edit"
  | .ralph => "ralph"

/-- JavaScript `s || null` on an optional string: the empty string is falsy
and collapses to null. -/
def jsOrNullStr : Option String → Option String
  | some s => if s = "" then none else some s
  | none => none

/-- JavaScript `n || null` on an optional number: 0 is falsy. -/
def jsOrNullNat : Option Nat → Option Nat
  | some n => if n = 0 then none else some n
  | none => none

/-- Character-list prefix test (used to model JavaScript `includes`). -/
def isPrefixOfChars : List Char → List Char → Bool
  | [], _ => true
  | _ :: _, [] => false
  | a :: as, b :: bs => a = b && isPrefixOfChars as bs

/-- Character-list substring test. -/
def containsSubChars (pat : List Char) : List Char → Bool
  | [] => pat.isEmpty
  | c :: rest => isPrefixOfChars pat (c :: rest) || containsSubChars pat rest

/-- JavaScript `s.includes(pat)`. -/
def strContainsSub (s pat : String) : Bool :=
  containsSubChars pat.toList s.toList

/-- JavaScript `s.toLowerCase()` (over the character list, so that it
evaluates by reduction). -/
def strToLower (s : String) : String := String.mk (s.toList.map Char.toLower)

/-- JavaScript `s.trim()`: strip whitespace from both ends. -/
def strTrim (s : String) : String :=
  String.mk (((s.toList.dropWhile Char.isWhitespace).reverse.dropWhile
    Char.isWhitespace).reverse)

/-- One pass of JavaScript `s.replaceAll(pat, rep)` over the character
list: non-overlapping occurrences are replaced left to right. The fuel
argument (instantiated with the list length, an upper bound on the number
of steps, since every step consumes at least one character) keeps the
recursion structural. -/
def replaceAllChars (pat rep : List Char) : Nat → List Char → List Char
  | _, [] => []
  | 0, l => l
  | fuel + 1, c :: rest =>
    if pat ≠ [] ∧ isPrefixOfChars pat (c :: rest) then
      rep ++ replaceAllChars pat rep fuel ((c :: rest).drop pat.length)
    else c :: replaceAllChars pat rep fuel rest

/-- JavaScript `s.replaceAll(pat, rep)` (an empty pattern leaves the
string unchanged; the call sites only use the non-empty `{prompt}`
marker). -/
def strReplaceAll (s pat rep : String) : String :=
  if pat = "" then s
  else String.mk (replaceAllChars pat.toList rep.toList s.toList.length s.toList)

/-- One normalized event as cached by an `AgentProcess` (the loosely typed
event objects of the source, restricted to the fields the core inspects:
`type`, `status`, `timestamp`, plus the payload fields of the raw/message
events `readNewEvents` synthesizes itself). -/
structure NEvent where
  type : String
  status : Option String := none
  timestamp : Option Nat := none
  content : Option String := none
  agent : Option String := none
  complete : Option Bool := none
deriving DecidableEq, Repr

/-- Modelled from the spec: the event normalizer (`normalizeEvents` of
src/parsers.ts) is not under src/ — only its declaration file
parsers.d.ts is — so a log line is represented by its parse outcome
rather than its raw JSON text: the exit-code sentinel object written by
`buildWindowsSpawnPs1` (a JSON object with key `__exit_code__`), a JSON
line carrying the normalizer output `normalizeEvents(agentType, raw)`
together with the timestamp `extractTimestamp(raw)` extracted from the
raw record, or a line that is not JSON at all (`JSON.parse` throws). -/
inductive RawLine where
  | sentinel (exitCode : Int)
  | jsonEvent (events : List NEvent) (extractedTs : Option Nat)
  | text (line : String)
deriving DecidableEq, Repr

/-- The per-agent stdout.log: its trimmed non-empty lines and its
last-modified time in milliseconds. -/
structure LogFile where
  lines : List RawLine
  mtimeMs : Nat
deriving DecidableEq, Repr

/-- Modelled from the spec: the resume-chain bookkeeping fields of §3
(`session_id`, `conversation_turn`, `original_agent_id`,
`reply_agent_ids`). The revision of src/agents.ts that carries and
persists these fields is missing from src/ (the compiled dist predates
the reply feature; only the test suite references them), so following §3
and §6 ("fields exactly as enumerated in §3") they are part of the
record and of its persisted meta file, written by `saveMeta` and read
back by `loadFromDisk` unchanged. -/
structure ConversationMeta where
  sessionId : Option String := none
  conversationTurn : Nat := 0
  originalAgentId : Option String := none
  replyAgentIds : List String := []
deriving DecidableEq, Repr

/-- In-memory state of one spawned agent (source: class `AgentProcess`).
`eventsCache` is the append-only normalized-event cache and `lastReadPos`
the monotonic read offset into the log (modelled in lines). -/
structure AgentProcess where
  agentId : String
  taskName : String
  agentType : AgentType
  prompt : String
  cwd : Option String := none
  workspaceDir : Option String := none
  mode : Mode := .plan
  pid : Option Nat := none
  status : AgentStatus := .running
  startedAtMs : Nat := 0
  completedAtMs : Option Nat := none
  parentSessionId : Option String := none
  eventsCache : List NEvent := []
  lastReadPos : Nat := 0
  conv : ConversationMeta := {}
deriving DecidableEq, Repr

/-- The persisted meta.json contents (source: the object built by
`AgentProcess.saveMeta`, with `status` and `mode` stored as strings). -/
structure MetaJson where
  agent_id : String
  task_name : String
  agent_type : AgentType
  prompt : String
  cwd : Option String
  workspace_dir : Option String
  mode : String
  pid : Option Nat
  status : String
  started_at : Nat
  completed_at : Option Nat
  parent_session_id : Option String
  conv : ConversationMeta
deriving DecidableEq, Repr

/-- Source: `AgentProcess.saveMeta` — the meta object written to
meta.json (the conversation fields follow the spec-modelled
`ConversationMeta`). -/
def saveMeta (a : AgentProcess) : MetaJson :=
  { agent_id := a.agentId
    task_name := a.taskName
    agent_type := a.agentType
    prompt := a.prompt
    cwd := a.cwd
    workspace_dir := a.workspaceDir
    mode := a.mode.toStr
    pid := a.pid
    status := a.status.toStr
    started_at := a.startedAtMs
    completed_at := a.completedAtMs
    parent_session_id := a.parentSessionId
    conv := a.conv }

/-- Source: `AgentProcess.loadFromDisk` — reconstruction of an agent from a
parsed meta.json. Mirrors the defaulting of the source: `meta.task_name ||
'default'`, `meta.cwd || null`, `meta.mode === 'edit' ? 'edit' : 'plan'`,
`meta.pid || null`, `AgentStatus[meta.status] || AgentStatus.RUNNING`,
`meta.parent_session_id || null`, `meta.workspace_dir || null`; the events
cache and read offset restart at empty/0. -/
def loadFromDisk (m : MetaJson) : AgentProcess :=
  { agentId := m.agent_id
    taskName := if m.task_name = "" then "default" else m.task_name
    agentType := m.agent_type
    prompt := m.prompt
    cwd := jsOrNullStr m.cwd
    workspaceDir := jsOrNullStr m.workspace_dir
    mode := if m.mode = "edit" then .edit else .plan
    pid := jsOrNullNat m.pid
    status := statusOfStr ((agentStatusEnumLookup m.status).getD "running")
    startedAtMs := m.started_at
    completedAtMs := m.completed_at
    parentSessionId := jsOrNullStr m.parent_session_id
    eventsCache := []
    lastReadPos := 0
    conv := m.conv }

/-- Source: `AgentProcess.getLatestEventTime` — the latest timestamp among
the cached events (events without a timestamp are skipped). -/
def getLatestEventTime (a : AgentProcess) : Option Nat :=
  a.eventsCache.foldl
    (fun latest e =>
      match e.timestamp with
      | none => latest
      | some t =>
        match latest with
        | none => some t
        | some m => if m < t then some t else some m)
    none

/-- Source: the benign-noise filter in `readNewEvents` — node-pty
AttachConsole stack traces from gemini helper processes on Windows are
suppressed outright. -/
def isGeminiWin32Noise (isWin32 : Bool) (t : AgentType) (line : String) : Bool :=
  decide (t = .gemini) && isWin32 &&
    (strContainsSub line "AttachConsole failed" ||
     strContainsSub line "conpty_console_list_agent" ||
     (strContainsSub line "@lydell" && strContainsSub line "node-pty"))

/-- Source: the per-event body of the `readNewEvents` loop — stamp the
event with the resolved timestamp, append it to the cache, and apply a
terminal `result` / `turn.completed` / `thread.completed` event to the
status and completion time. -/
def applyEvent (rts : Nat) (st : AgentProcess) (e : NEvent) : AgentProcess :=
  let e1 : NEvent := { e with timestamp := some rts }
  let st1 : AgentProcess := { st with eventsCache := st.eventsCache ++ [e1] }
  if e1.type = "result" ∨ e1.type = "turn.completed" ∨ e1.type = "thread.completed" then
    if e1.status = some "success" ∨ e1.type = "turn.completed" then
      { st1 with status := .completed, completedAtMs := some rts }
    else if e1.status = some "error" then
      { st1 with status := .failed, completedAtMs := some rts }
    else st1
  else st1

/-- Source: the per-line body of the `readNewEvents` loop — the exit-code
sentinel sets completed/failed from the real exit code with completion
time from the log's mtime; a JSON event line is normalized and applied
event by event; a non-JSON line becomes a `message` event (copilot) or a
`raw` event, unless it is suppressed Windows gemini noise. -/
def processLine (isWin32 : Bool) (mtimeMs : Nat) (st : AgentProcess) :
    RawLine → AgentProcess
  | .sentinel code =>
    { st with
        status := if code = 0 then .completed else .failed
        completedAtMs := some mtimeMs }
  | .jsonEvent events extractedTs =>
    let rts := extractedTs.getD mtimeMs
    events.foldl (applyEvent rts) st
  | .text line =>
    if isGeminiWin32Noise isWin32 st.agentType line then st
    else if st.agentType = .copilot then
      { st with
          eventsCache := st.eventsCache ++
            [{ type := "message", agent := some "copilot", content := some line,
               complete := some true, timestamp := some mtimeMs }] }
    else
      { st with
          eventsCache := st.eventsCache ++
            [{ type := "raw", content := some line, timestamp := some mtimeMs }] }

/-- Source: `AgentProcess.readNewEvents` — read the log from the current
offset, advance the offset, and process each new line in file order. A
missing log file or zero new bytes leave the record unchanged. -/
def readNewEvents (isWin32 : Bool) (log : Option LogFile) (a : AgentProcess) :
    AgentProcess :=
  match log with
  | none => a
  | some lf =>
    let newLines := lf.lines.drop a.lastReadPos
    if newLines.isEmpty then a
    else
      let a1 : AgentProcess := { a with lastReadPos := lf.lines.length }
      newLines.foldl (processLine isWin32 lf.mtimeMs) a1

/-- Source: `AgentProcess.reapProcess` — probes the pid with signal 0 and
returns null while the process is alive; when the probe throws (process
gone) it returns 1. -/
def reapProcess (aliveNow : Bool) : Option Int :=
  if aliveNow then none else some 1

/-- Source: `AgentProcess.updateStatusFromProcess`. Returns the updated
record together with the list of meta files it writes (the source calls
`saveMeta` unconditionally at the end of the dead-process path). The
source falls back to `getLatestEventTime() || this.startedAt || new
Date()` for the completion time; `startedAt` is always a truthy `Date`,
so the current-time fallback is unreachable and does not appear here. -/
def updateStatusFromProcess (isWin32 : Bool) (alive : Nat → Bool)
    (log : Option LogFile) (a : AgentProcess) : AgentProcess × List MetaJson :=
  match a.pid with
  | none => (a, [])
  | some p =>
    if alive p then (readNewEvents isWin32 log a, [])
    else
      let a1 :=
        if a.status = .running then
          let exitCode := reapProcess (alive p)
          let a2 := readNewEvents isWin32 log a
          if a2.status = .running then
            let fb := (getLatestEventTime a2).getD a2.startedAtMs
            { a2 with
                status :=
                  if exitCode ≠ none ∧ exitCode ≠ some 0 then .failed else .completed
                completedAtMs := some fb }
          else a2
        else if a.completedAtMs = none then
          let a2 := readNewEvents isWin32 log a
          { a2 with
              completedAtMs := some ((getLatestEventTime a2).getD a2.startedAtMs) }
        else a
      (a1, [saveMeta a1])

/-- The status-reconciliation path as executed by `AgentManager.get` and
`AgentManager.listAll`: `readNewEvents` followed by
`updateStatusFromProcess`. -/
def reconcile (isWin32 : Bool) (alive : Nat → Bool) (log : Option LogFile)
    (a : AgentProcess) : AgentProcess × List MetaJson :=
  updateStatusFromProcess isWin32 alive log (readNewEvents isWin32 log a)

/-- Source: the per-agent core of `AgentManager.stop` — when the record has
a pid and is still running, signal the process group (best effort), mark
it stopped with the current time as completion time and persist; otherwise
report `false` without touching the record. -/
def stopAgent (nowMs : Nat) (a : AgentProcess) : AgentProcess × Bool × List MetaJson :=
  if jsOrNullNat a.pid ≠ none ∧ a.status = .running then
    let a1 : AgentProcess := { a with status := .stopped, completedAtMs := some nowMs }
    (a1, true, [saveMeta a1])
  else (a, false, [])

/-- Source: `isProcessAlive` in cli.js — a missing or non-positive pid is
never alive; otherwise probe the OS. -/
def cliIsProcessAlive (alive : Nat → Bool) : Option Nat → Bool
  | none => false
  | some p => if p = 0 then false else alive p

/-- Source: the status re-check in `getTaskAgents` (cli.js) — a record
whose meta still says `running` but whose process is gone is reported as
`completed` (the source comment: "treat as completed (conservative
guess)"). -/
def effectiveStatusOfMeta (alive : Nat → Bool) (m : MetaJson) : String :=
  if m.status = "running" ∧ jsOrNullNat m.pid ≠ none ∧
      ¬ cliIsProcessAlive alive m.pid then "completed"
  else m.status

/-- One row of the `getTaskAgents` result (restricted to the fields the
claims inspect). -/
structure TaskAgentRow where
  agent_id : String
  status : String
deriving DecidableEq, Repr

/-- Source: `getTaskAgents` in cli.js — scan the store directory, keep the
entries whose meta parses and matches the task name, and report each with
its liveness-corrected status. An entry whose meta.json is missing or
malformed is `none` and skipped. -/
def getTaskAgents (alive : Nat → Bool) (entries : List (String × Option MetaJson))
    (taskName : String) : List TaskAgentRow :=
  entries.foldl
    (fun acc e =>
      match e.2 with
      | none => acc
      | some m =>
        if m.task_name = taskName then
          acc ++ [{ agent_id := m.agent_id, status := effectiveStatusOfMeta alive m }]
        else acc)
    []

/-- The single-quote character. -/
def squoteChar : Char := '\''

/-- The double-quote character. -/
def dquoteChar : Char := '\"'

/-- The backslash character. -/
def bslashChar : Char := '\\'

/-- Source: the thrown message of `splitCommandTemplate`. -/
def unterminatedMsg (cmdStr : String) : String :=
  "Unterminated quote in command template: " ++ cmdStr

/-- Source: the character loop of `splitCommandTemplate`, with the loop
index replaced by structural recursion over the remaining characters and
the two mode booleans, the current token and the token accumulator passed
explicitly. The error check happens when the characters run out, exactly
as in the source. -/
def splitCmdLoop (cmdStr : String) :
    List Char → Bool → Bool → String → List String → Except String (List String)
  | [], inS, inD, current, result =>
    let result1 := if current.length > 0 then result ++ [current] else result
    if inS || inD then .error (unterminatedMsg cmdStr) else .ok result1
  | ch :: rest, true, inD, current, result =>
    if ch = squoteChar then splitCmdLoop cmdStr rest false inD current result
    else splitCmdLoop cmdStr rest true inD (current.push ch) result
  | ch :: next :: rest2, false, true, current, result =>
    if ch = dquoteChar then splitCmdLoop cmdStr (next :: rest2) false false current result
    else if ch = bslashChar then
      if next = dquoteChar ∨ next = bslashChar then
        splitCmdLoop cmdStr rest2 false true (current.push next) result
      else splitCmdLoop cmdStr (next :: rest2) false true (current.push ch) result
    else splitCmdLoop cmdStr (next :: rest2) false true (current.push ch) result
  | ch :: rest, false, true, current, result =>
    if ch = dquoteChar then splitCmdLoop cmdStr rest false false current result
    else splitCmdLoop cmdStr rest false true (current.push ch) result
  | ch :: rest, false, false, current, result =>
    if ch = squoteChar then splitCmdLoop cmdStr rest true false current result
    else if ch = dquoteChar then splitCmdLoop cmdStr rest false true current result
    else if ch = ' ' ∨ ch = '\t' then
      if current.length > 0 then
        splitCmdLoop cmdStr rest false false "" (result ++ [current])
      else splitCmdLoop cmdStr rest false false current result
    else splitCmdLoop cmdStr rest false false (current.push ch) result

/-- Source: `splitCommandTemplate` — split a command template string into
an argv array, handling single and double quotes; throws on unterminated
quotes. -/
def splitCommandTemplate (cmdStr : String) : Except String (List String) :=
  splitCmdLoop cmdStr cmdStr.toList false false "" []

/-- Quoting mode of the specification-level scanner. -/
inductive QMode where
  | plain
  | insingle
  | indouble
deriving DecidableEq, Repr

/-- Specification-level splitter, written from the claim's words: the
input is split on unquoted spaces and tabs with the quote characters
removed; single-quoted content is taken literally; inside double quotes
only backslash-doublequote and backslash-backslash are unescaped; a scan
that ends inside a quote means the input contains an unterminated quote
and yields `none`. Tokens are accumulated in reverse and reversed at the
end. -/
def specScan : List Char → QMode → String → List String → Option (List String)
  | [], .plain, cur, acc => some ((if cur = "" then acc else cur :: acc).reverse)
  | [], .insingle, _, _ => none
  | [], .indouble, _, _ => none
  | c :: rest, .insingle, cur, acc =>
    if c = squoteChar then specScan rest .plain cur acc
    else specScan rest .insingle (cur.push c) acc
  | c :: d :: rest2, .indouble, cur, acc =>
    if c = dquoteChar then specScan (d :: rest2) .plain cur acc
    else if c = bslashChar then
      if d = dquoteChar ∨ d = bslashChar then specScan rest2 .indouble (cur.push d) acc
      else specScan (d :: rest2) .indouble (cur.push c) acc
    else specScan (d :: rest2) .indouble (cur.push c) acc
  | c :: rest, .indouble, cur, acc =>
    if c = dquoteChar then specScan rest .plain cur acc
    else specScan rest .indouble (cur.push c) acc
  | c :: rest, .plain, cur, acc =>
    if c = squoteChar then specScan rest .insingle cur acc
    else if c = dquoteChar then specScan rest .indouble cur acc
    else if c = ' ' ∨ c = '\t' then
      specScan rest .plain "" (if cur = "" then acc else cur :: acc)
    else specScan rest .plain (cur.push c) acc

/-- Specification-level contract of `splitCommandTemplate`: `none` exactly
when the template contains an unterminated quote, otherwise the token
list. -/
def specSplitCommand (s : String) : Option (List String) :=
  specScan s.toList .plain "" []

/-- Source: `AGENT_COMMANDS` — the built-in per-kind command templates. -/
def AGENT_COMMANDS : AgentType → List String
  | .codex =>
    ["codex", "exec", "--dangerously-bypass-approvals-and-sandbox", "{prompt}", "--json"]
  | .cursor => ["cursor-agent", "-p", "--output-format", "stream-json", "{prompt}"]
  | .gemini => ["gemini", "-p", "{prompt}", "--output-format", "stream-json"]
  | .claude =>
    ["claude", "-p", "--verbose", "{prompt}", "--output-format", "stream-json",
     "--permission-mode", "plan"]
  | .opencode => ["opencode", "run", "--format", "json", "{prompt}"]
  | .copilot => ["copilot", "-p", "{prompt}", "-s"]

/-- The agent-kind name as it appears in configuration and messages. -/
def AgentType.toStr : AgentType → String
  | .codex => "codex"
  | .gemini => "gemini"
  | .cursor => "cursor"
  | .claude => "claude"
  | .opencode => "opencode"
  | .copilot => "copilot"

/-- Source: `PROMPT_SUFFIX` — appended to all prompts. -/
def PROMPT_SUFFIX : String :=
  "\n\nWhen you're done, provide a brief summary of:\n1. What you did (1-2 sentences)\n2. Key files modified and why\n3. Any important classes, functions, or components you added/changed"

/-- Source: `CLAUDE_PLAN_MODE_PREFIX` — prepended for Claude agents outside
edit mode. -/
def CLAUDE_PLAN_MODE_PREFIX : String :=
  "You are running in HEADLESS PLAN MODE. This mode works like normal plan mode with one exception: you cannot write to ~/.claude/plans/ directory. Instead of writing a plan file, output your complete plan/response as your final message.\n\n"

/-- POSIX `path.basename`: trailing slashes are dropped, then the segment
after the last slash is returned ("/" when the path is all slashes, ""
for the empty path). -/
def posixBasename (s : String) : String :=
  let cs := s.toList
  let trimmed := (cs.reverse.dropWhile (fun c => c = '/')).reverse
  if trimmed.isEmpty then (if cs.isEmpty then "" else "/")
  else String.mk ((trimmed.reverse.takeWhile (fun c => c ≠ '/')).reverse)

/-- Source: `isCompatibleAgentCli` — whether the first token of a command
template names the recognized executable for the agent kind (by
lower-cased basename, optionally with an `.exe` extension). -/
def isCompatibleAgentCli (agentType : AgentType) (firstArg : String) : Bool :=
  if firstArg = "" then false
  else
    let exe := strToLower (posixBasename firstArg)
    match agentType with
    | .codex => exe == "codex" || exe == "codex.exe"
    | .claude => exe == "claude" || exe == "claude.exe"
    | .gemini => exe == "gemini" || exe == "gemini.exe"
    | .cursor => exe == "cursor-agent" || exe == "cursor-agent.exe"
    | .opencode => exe == "opencode" || exe == "opencode.exe"
    | .copilot => exe == "copilot" || exe == "copilot.exe"

/-- Source: `ensureClaudeFlag` — append the flag (and its value) unless the
flag is already present. -/
def ensureClaudeFlag (cmd : List String) (flag : String) (value : Option String) :
    List String :=
  if cmd.contains flag then cmd
  else
    match value with
    | none => cmd ++ [flag]
    | some v => cmd ++ [flag, v]

/-- Source: `ensureGeminiHeadlessFlag` — make sure `-p` is present, inserted
just before the prompt when the prompt is found, appended otherwise. -/
def ensureGeminiHeadlessFlag (cmd : List String) (promptText : String) : List String :=
  if cmd.contains "-p" || cmd.contains "--prompt" then cmd
  else
    match cmd.findIdx? (fun x => x == promptText) with
    | some i => cmd.take i ++ ["-p"] ++ cmd.drop i
    | none => cmd ++ ["-p"]

/-- Source: `AgentManager.applyEditMode` — kind-specific write-enabling
flags. -/
def applyEditMode (agentType : AgentType) (cmd : List String) : List String :=
  match agentType with
  | .codex => cmd ++ ["--full-auto"]
  | .cursor => cmd ++ ["-f"]
  | .gemini => cmd ++ ["--yolo"]
  | .claude =>
    match cmd.findIdx? (fun x => x == "--permission-mode") with
    | some i => if i + 1 < cmd.length then cmd.set (i + 1) "acceptEdits" else cmd
    | none => cmd
  | .copilot => cmd ++ ["--allow-all-tools", "--allow-all-paths", "--no-ask-user"]
  | .opencode => cmd

/-- Source: `AgentManager.applyRalphMode` — kind-specific most-permissive
flags; for Claude the `--permission-mode` pair is removed and replaced. -/
def applyRalphMode (agentType : AgentType) (cmd : List String) : List String :=
  match agentType with
  | .codex => cmd ++ ["--full-auto"]
  | .cursor => cmd ++ ["-f"]
  | .gemini => cmd ++ ["--yolo"]
  | .claude =>
    let c :=
      match cmd.findIdx? (fun x => x == "--permission-mode") with
      | some i => cmd.take i ++ cmd.drop (i + 2)
      | none => cmd
    c ++ ["--dangerously-skip-permissions"]
  | .copilot => cmd ++ ["--yolo"]
  | .opencode => cmd

/-- Source: the `ConfigurationError` message thrown by `buildCommand` when
a template has no prompt placeholder; it names the offending agent kind
and the expected marker. -/
def missingPlaceholderMsg (agentType : AgentType) : String :=
  "Agent config for '" ++ agentType.toStr ++
    "' is missing the required {prompt} placeholder in its command. Config path: ~/.agents/swarm/config.json. Example fix: \"my-cli run '{prompt}' --json\""

/-- The full prompt `buildCommand` substitutes: the caller prompt plus the
fixed summary suffix, with the headless-plan-mode preamble prepended for
Claude outside edit mode. -/
def fullPromptOf (agentType : AgentType) (prompt : String) (mode : Mode) : String :=
  let base := prompt ++ PROMPT_SUFFIX
  if agentType = .claude ∧ mode ≠ .edit then CLAUDE_PLAN_MODE_PREFIX ++ base else base

/-- The template `buildCommand` starts from: the trimmed per-kind config
command when one is present, split into tokens, else the built-in
template. -/
def baseTemplateOf (cfgCommand : AgentType → Option String) (agentType : AgentType) :
    Except String (List String) :=
  let configAgentCommand := strTrim ((cfgCommand agentType).getD "")
  if configAgentCommand ≠ "" then splitCommandTemplate configAgentCommand
  else .ok (AGENT_COMMANDS agentType)

/-- Source: `AgentManager.buildCommand`. The configuration snapshot enters
as `cfgCommand` (the per-kind `command` override) and the user's home
directory as `homedirPath` (for the Claude settings path). Errors are the
thrown messages of the source: an unterminated override template or a
template without the `{prompt}` marker. -/
def buildCommand (homedirPath : String) (cfgCommand : AgentType → Option String)
    (agentType : AgentType) (prompt : String) (mode : Mode) (model : String)
    (cwd : Option String) : Except String (List String) :=
  let isEditMode : Bool := mode == .edit
  let fullPrompt := fullPromptOf agentType prompt mode
  match baseTemplateOf cfgCommand agentType with
  | .error e => .error e
  | .ok baseTemplate =>
    if !(baseTemplate.any fun part => strContainsSub part "{prompt}") then
      .error (missingPlaceholderMsg agentType)
    else
      let cmd0 := baseTemplate.map fun part => strReplaceAll part "{prompt}" fullPrompt
      if !(isCompatibleAgentCli agentType (cmd0.headD "")) then .ok cmd0
      else
        let cmd1 :=
          if agentType == .claude then
            let cA := ensureClaudeFlag cmd0 "--verbose" none
            let cB := ensureClaudeFlag cA "--permission-mode" (some "plan")
            let cC :=
              if cB.contains "--settings" then cB
              else cB ++ ["--settings", homedirPath ++ "/.claude/settings.json"]
            match cwd with
            | some c => if cC.contains "--add-dir" then cC else cC ++ ["--add-dir", c]
            | none => cC
          else cmd0
        let cmd2 :=
          if agentType == .gemini then ensureGeminiHeadlessFlag cmd1 fullPrompt else cmd1
        let cmd3 :=
          if agentType == .gemini && mode == .plan then
            if !(cmd2.contains "--approval-mode") && !(cmd2.contains "--yolo") then
              cmd2 ++ ["--approval-mode", "plan"]
            else cmd2
          else cmd2
        let cmd4 :=
          if cmd3.contains "--model" then cmd3
          else
            match agentType with
            | .codex =>
              let insertIdx :=
                match cmd3.findIdx? (fun x => x == "--sandbox") with
                | some i => i
                | none =>
                  match cmd3.findIdx? (fun x => x == "exec") with
                  | some j => j + 1
                  | none => 0
              cmd3.take insertIdx ++ ["--model", model] ++ cmd3.drop insertIdx
            | .cursor => cmd3 ++ ["--model", model]
            | .gemini => cmd3 ++ ["--model", model]
            | .claude => cmd3 ++ ["--model", model]
            | .opencode =>
              let opencodeAgent := if mode == .edit || mode == .ralph then "build" else "plan"
              let c :=
                match cmd3.findIdx? (fun x => x == fullPrompt) with
                | some i => cmd3.take (i + 1) ++ ["--agent", opencodeAgent] ++ cmd3.drop (i + 1)
                | none => cmd3
              c ++ ["--model", model]
            | .copilot => cmd3 ++ ["--model", model]
        if mode == .ralph then .ok (applyRalphMode agentType cmd4)
        else if isEditMode then .ok (applyEditMode agentType cmd4)
        else .ok cmd4

/-- File-system effects of a manager operation: how many directory scans
(`loadExistingAgents` runs) it performed, the meta files it wrote, and the
agent directories it created or removed. -/
structure Trace where
  scans : Nat := 0
  metaWrites : List MetaJson := []
  createdDirs : List String := []
  removedDirs : List String := []
deriving DecidableEq, Repr

/-- The empty trace. -/
def Trace.empty : Trace := {}

/-- Lookup in the manager's insertion-ordered agent map. -/
def mapGet (agents : List (String × AgentProcess)) (k : String) : Option AgentProcess :=
  (agents.find? (fun p => p.1 == k)).map (fun p => p.2)

/-- `Map.set`: overwrite in place, or append a new key. -/
def mapSet (agents : List (String × AgentProcess)) (k : String) (v : AgentProcess) :
    List (String × AgentProcess) :=
  if agents.any (fun p => p.1 == k) then
    agents.map (fun p => if p.1 == k then (k, v) else p)
  else agents ++ [(k, v)]

/-- Manager construction parameters (source: the `AgentManager`
constructor). -/
structure ManagerConfig where
  maxAgents : Nat := 50
  maxConcurrent : Nat := 10
  filterByCwd : Option String := none
  cleanupAgeDays : Nat := 7
  defaultMode : Mode := .plan
deriving DecidableEq, Repr

/-- Manager state: the in-memory agent map and the configuration. -/
structure ManagerState where
  agents : List (String × AgentProcess) := []
  cfg : ManagerConfig := {}
deriving DecidableEq, Repr

/-- The environment a manager run observes: platform, OS process liveness,
per-agent log files, the store directory listing (each entry with its
parsed meta.json, `none` when missing or malformed), the clock, CLI
availability, `fs.stat` on a path (`none` missing, `some b` with `b` =
is-directory), the fresh agent id, the pid the OS assigns, the
configuration snapshot and the home directory. -/
structure Env where
  isWin32 : Bool := false
  alive : Nat → Bool := fun _ => false
  logs : String → Option LogFile := fun _ => none
  disk : List (String × Option MetaJson) := []
  nowMs : Nat := 0
  cliAvailable : AgentType → Bool := fun _ => true
  statPath : String → Option Bool := fun _ => some true
  freshId : String := "id-1"
  spawnPid : Option Nat := some 1
  cfgCommand : AgentType → Option String := fun _ => none
  homedirPath : String := "/home/u"

/-- Source: the loop body of `AgentManager.loadExistingAgents` — skip
entries without a readable meta, evict records whose completion time is
older than the retention window, skip records outside the configured
working-directory scope, reconcile the rest against the OS and store them
in the agent map (overwriting any in-memory entry of the same key). -/
def loadOneAgent (env : Env) (cfg : ManagerConfig)
    (acc : List (String × AgentProcess) × Trace) (entry : String × Option MetaJson) :
    List (String × AgentProcess) × Trace :=
  match entry.2 with
  | none => acc
  | some m =>
    let agent := loadFromDisk m
    let old : Bool :=
      match agent.completedAtMs with
      | some c => c + cfg.cleanupAgeDays * 86400000 < env.nowMs
      | none => false
    if old then
      (acc.1, { acc.2 with removedDirs := acc.2.removedDirs ++ [entry.1] })
    else
      let skipCwd : Bool :=
        match cfg.filterByCwd with
        | some f => agent.cwd != some f
        | none => false
      if skipCwd then acc
      else
        let (a1, w) := updateStatusFromProcess env.isWin32 env.alive
          (env.logs agent.agentId) agent
        (mapSet acc.1 entry.1 a1, { acc.2 with metaWrites := acc.2.metaWrites ++ w })

/-- Source: `AgentManager.initialize` in the compiled dist — resolve the
store directory, reset the configuration maps and run the
`loadExistingAgents` directory scan. The compiled method has no
memoization guard: every call re-runs the scan. -/
def managerInit (env : Env) (st : ManagerState) : ManagerState × Trace :=
  let (agents1, tr) := env.disk.foldl (loadOneAgent env st.cfg) (st.agents, Trace.empty)
  ({ st with agents := agents1 }, { tr with scans := tr.scans + 1 })

/-- Source: `AgentManager.listAll` — refresh every tracked record through
the reconciliation path (`readNewEvents` then `updateStatusFromProcess`)
and return them all. -/
def listAllOp (env : Env) (st : ManagerState) : ManagerState × List MetaJson :=
  let r := st.agents.foldl
    (fun (acc : List (String × AgentProcess) × List MetaJson) p =>
      let (a1, w) := reconcile env.isWin32 env.alive (env.logs p.2.agentId) p.2
      (acc.1 ++ [(p.1, a1)], acc.2 ++ w))
    ([], [])
  ({ st with agents := r.1 }, r.2)

/-- Number of records with status `running` (source: `listRunning`). -/
def runningCount (agents : List (String × AgentProcess)) : Nat :=
  (agents.filter (fun p => p.2.status == AgentStatus.running)).length

/-- Spawn failures (source: the messages thrown by `AgentManager.spawn`). -/
inductive SpawnErr where
  | concurrencyLimit (maxConcurrent : Nat)
  | cliNotAvailable (agentType : AgentType)
  | invalidCwdMissing (cwd : String)
  | invalidCwdNotDir (cwd : String)
  | configurationError (msg : String)
deriving DecidableEq, Repr

/-- Source: `AgentManager.cleanupOldAgents` — refresh all records
(`listCompleted`), and if the terminal records exceed `maxAgents`, evict
the oldest-completed down to the maximum, removing their entries and
on-disk directories. -/
def cleanupOldAgents (env : Env) (st : ManagerState) (tr : Trace) :
    ManagerState × Trace :=
  let r := listAllOp env st
  let st1 := r.1
  let tr1 := { tr with metaWrites := tr.metaWrites ++ r.2 }
  let completed := st1.agents.filter (fun p => p.2.status != AgentStatus.running)
  if completed.length > st1.cfg.maxAgents then
    let sorted := completed.mergeSort
      (fun a b => (a.2.completedAtMs.getD 0) ≤ (b.2.completedAtMs.getD 0))
    let evict := sorted.take (completed.length - st1.cfg.maxAgents)
    let remaining := st1.agents.filter
      (fun p => !(evict.any (fun q => q.2.agentId == p.1)))
    ({ st1 with agents := remaining },
      { tr1 with removedDirs := tr1.removedDirs ++ evict.map (fun q => q.2.agentId) })
  else (st1, tr1)

/-- Tail of `AgentManager.spawn` past the admission checks: compile the
command (the thrown `ConfigurationError`/unterminated-template messages
propagate), create the agent record and its directory, launch the
process, persist the meta, track the record and run retention. -/
def spawnLaunch (env : Env) (st2 : ManagerState) (tr : Trace) (taskName : String)
    (agentType : AgentType) (prompt : String) (resolvedCwd : Option String)
    (resolvedMode : Mode) (parentSessionId workspaceDir : Option String)
    (model : String) : ManagerState × Trace × Except SpawnErr String :=
  let agentId := env.freshId
  match buildCommand env.homedirPath env.cfgCommand agentType prompt resolvedMode
      model resolvedCwd with
  | .error msg => (st2, tr, .error (.configurationError msg))
  | .ok _cmd =>
    let agent : AgentProcess :=
      { agentId := agentId, taskName := taskName, agentType := agentType,
        prompt := prompt, cwd := resolvedCwd, workspaceDir := workspaceDir,
        mode := resolvedMode, pid := none, status := .running,
        startedAtMs := env.nowMs, completedAtMs := none,
        parentSessionId := parentSessionId, eventsCache := [], lastReadPos := 0,
        conv := {} }
    let tr3 := { tr with createdDirs := tr.createdDirs ++ [agentId] }
    let agent1 := { agent with pid := jsOrNullNat env.spawnPid }
    let tr4 := { tr3 with metaWrites := tr3.metaWrites ++ [saveMeta agent1] }
    let st3 := { st2 with agents := mapSet st2.agents agentId agent1 }
    let r := cleanupOldAgents env st3 tr4
    (r.1, r.2, .ok agentId)

/-- Source: `AgentManager.spawn` — awaits `initialize` (which re-runs the
scan), resolves the mode, refreshes all records and counts the running
ones, and fails with the concurrency-limit error at the ceiling before
anything is created; then checks CLI availability and the working
directory, and only then builds and launches the new agent. -/
def spawn (env : Env) (st : ManagerState) (taskName : String)
    (agentType : AgentType) (prompt : String) (cwd : Option String)
    (mode : Option Mode) (parentSessionId workspaceDir : Option String)
    (model : String) : ManagerState × Trace × Except SpawnErr String :=
  let (st1, tr1) := managerInit env st
  let resolvedMode := mode.getD st1.cfg.defaultMode
  let r2 := listAllOp env st1
  let st2 := r2.1
  let tr2 := { tr1 with metaWrites := tr1.metaWrites ++ r2.2 }
  if runningCount st2.agents ≥ st2.cfg.maxConcurrent then
    (st2, tr2, .error (.concurrencyLimit st2.cfg.maxConcurrent))
  else if ¬ env.cliAvailable agentType then
    (st2, tr2, .error (.cliNotAvailable agentType))
  else
    match cwd with
    | some c =>
      (match env.statPath c with
       | none => (st2, tr2, .error (.invalidCwdMissing c))
       | some false => (st2, tr2, .error (.invalidCwdNotDir c))
       | some true =>
         spawnLaunch env st2 tr2 taskName agentType prompt (some c) resolvedMode
           parentSessionId workspaceDir model)
    | none =>
      spawnLaunch env st2 tr2 taskName agentType prompt none resolvedMode
        parentSessionId workspaceDir model

/-- Source: `AgentManager.get` — awaits `initialize` (re-running the
scan), then reconciles and returns the tracked record, falling back to a
disk load for an untracked id. -/
def getAgent (env : Env) (st : ManagerState) (agentId : String) :
    ManagerState × Trace × Option AgentProcess :=
  let (st1, tr1) := managerInit env st
  match mapGet st1.agents agentId with
  | some a =>
    let (a1, w) := reconcile env.isWin32 env.alive (env.logs a.agentId) a
    ({ st1 with agents := mapSet st1.agents agentId a1 },
      { tr1 with metaWrites := tr1.metaWrites ++ w }, some a1)
  | none =>
    match ((env.disk.find? (fun e => e.1 == agentId)).bind (fun e => e.2)) with
    | some m =>
      let a := loadFromDisk m
      let (a1, w) := reconcile env.isWin32 env.alive (env.logs a.agentId) a
      ({ st1 with agents := mapSet st1.agents agentId a1 },
        { tr1 with metaWrites := tr1.metaWrites ++ w }, some a1)
    | none => (st1, tr1, none)

/-- Source: `AgentManager.stop` — awaits `initialize` (re-running the
scan), then stops the tracked record when it is still running, reporting
`false` for unknown ids and already-terminal records. -/
def stopOp (env : Env) (st : ManagerState) (agentId : String) :
    ManagerState × Trace × Bool :=
  let (st1, tr1) := managerInit env st
  match mapGet st1.agents agentId with
  | none => (st1, tr1, false)
  | some a =>
    let r := stopAgent env.nowMs a
    ({ st1 with agents := mapSet st1.agents agentId r.1 },
      { tr1 with metaWrites := tr1.metaWrites ++ r.2.2 }, r.2.1)

/-- Concrete completed agent persisted in the store, used to exercise the
startup-scan path. -/
def c5DiskAgent : AgentProcess :=
  { agentId := "idem", taskName := "task-1", agentType := AgentType.claude,
    prompt := "p", status := AgentStatus.completed, startedAtMs := 900,
    completedAtMs := some 1000 }

/-- Environment with exactly `c5DiskAgent` on disk. -/
def c5Env : Env := { disk := [("idem", some (saveMeta c5DiskAgent))], nowMs := 1000 }

/-- Manager state after the first initialization (constructor-triggered).-/
def c5Loaded : ManagerState := (managerInit c5Env {}).1

/-- The loaded state with an in-memory-only change (a reply id recorded on
the tracked record but not yet re-read from disk), mirroring the
repository's own initialize-idempotence test. -/
def c5Tampered : ManagerState :=
  { c5Loaded with
    agents := [("idem",
      { loadFromDisk (saveMeta c5DiskAgent) with
        conv := { replyAgentIds := ["reply-1"] } })] }

/-- A running agent with a live pid, for exercising the spawn admission
check. -/
def c3Running : AgentProcess :=
  { agentId := "r1", taskName := "t", agentType := AgentType.codex,
    prompt := "p", pid := some 1, status := AgentStatus.running, startedAtMs := 10 }

/-- Environment where every probed process is alive and no CLI is
installed. -/
def c3Env : Env := { alive := fun _ => true, cliAvailable := fun _ => false }

/-- Manager state holding one running agent with a concurrency ceiling of
1 (the ceiling is reached). -/
def c3StAtCeiling : ManagerState :=
  { agents := [("r1", c3Running)], cfg := { maxConcurrent := 1 } }

/-- Manager state holding one running agent with a concurrency ceiling of
2 (below the ceiling). -/
def c3StBelow : ManagerState :=
  { agents := [("r1", c3Running)], cfg := { maxConcurrent := 2 } }

theorem foldl_preserves {α β : Type} {P : α → Prop} {f : α → β → α}
    (h : ∀ a b, P a → P (f a b)) : ∀ (l : List β) (a : α), P a → P (l.foldl f a) := by
  intro l
  induction l with
  | nil => intro a ha; exact ha
  | cons x xs ih => intro a ha; exact ih (f a x) (h a x ha)

theorem applyEvent_fields (rts : Nat) (st : AgentProcess) (e : NEvent) :
    (applyEvent rts st e).lastReadPos = st.lastReadPos ∧
    (applyEvent rts st e).pid = st.pid ∧
    (applyEvent rts st e).startedAtMs = st.startedAtMs := by
  simp only [applyEvent]
  split
  · split
    · simp
    · split
      · simp
      · simp
  · simp

theorem applyEvent_not_running {rts : Nat} {st : AgentProcess} {e : NEvent}
    (h : st.status ≠ .running) : (applyEvent rts st e).status ≠ .running := by
  simp only [applyEvent]
  split
  · split
    · simp
    · split
      · simp
      · simpa using h
  · simpa using h

theorem applyEvent_completion {rts : Nat} {st : AgentProcess} {e : NEvent}
    (h : st.status = .running ∨ st.completedAtMs ≠ none) :
    (applyEvent rts st e).status = .running ∨ (applyEvent rts st e).completedAtMs ≠ none := by
  simp only [applyEvent]
  split
  · split
    · simp
    · split
      · simp
      · simpa using h
  · simpa using h

theorem applyEvent_cache (rts : Nat) (st : AgentProcess) (e : NEvent) :
    ∃ t, (applyEvent rts st e).eventsCache = st.eventsCache ++ t := by
  simp only [applyEvent]
  split
  · split
    · exact ⟨_, rfl⟩
    · split
      · exact ⟨_, rfl⟩
      · exact ⟨_, rfl⟩
  · exact ⟨_, rfl⟩

theorem processLine_fields (w : Bool) (m : Nat) (st : AgentProcess) (ln : RawLine) :
    (processLine w m st ln).lastReadPos = st.lastReadPos ∧
    (processLine w m st ln).pid = st.pid ∧
    (processLine w m st ln).startedAtMs = st.startedAtMs := by
  cases ln with
  | sentinel code => simp [processLine]
  | jsonEvent events ts =>
    simp only [processLine]
    exact foldl_preserves
      (P := fun (x : AgentProcess) => x.lastReadPos = st.lastReadPos ∧ x.pid = st.pid ∧
        x.startedAtMs = st.startedAtMs)
      (fun a b hp => by
        obtain ⟨h1, h2, h3⟩ := applyEvent_fields (ts.getD m) a b
        exact ⟨h1.trans hp.1, h2.trans hp.2.1, h3.trans hp.2.2⟩)
      events st ⟨rfl, rfl, rfl⟩
  | text line =>
    simp only [processLine]
    split
    · simp
    · split <;> simp

theorem processLine_not_running {w : Bool} {m : Nat} {st : AgentProcess} {ln : RawLine}
    (h : st.status ≠ .running) : (processLine w m st ln).status ≠ .running := by
  cases ln with
  | sentinel code =>
    simp only [processLine]
    split <;> simp
  | jsonEvent events ts =>
    simp only [processLine]
    exact foldl_preserves (P := fun (x : AgentProcess) => x.status ≠ .running)
      (fun a b hp => applyEvent_not_running hp) events st h
  | text line =>
    simp only [processLine]
    split
    · exact h
    · split <;> simpa using h

theorem processLine_completion {w : Bool} {m : Nat} {st : AgentProcess} {ln : RawLine}
    (h : st.status = .running ∨ st.completedAtMs ≠ none) :
    (processLine w m st ln).status = .running ∨
      (processLine w m st ln).completedAtMs ≠ none := by
  cases ln with
  | sentinel code =>
    simp only [processLine]
    split <;> simp
  | jsonEvent events ts =>
    simp only [processLine]
    exact foldl_preserves
      (P := fun (x : AgentProcess) => x.status = .running ∨ x.completedAtMs ≠ none)
      (fun a b hp => applyEvent_completion hp) events st h
  | text line =>
    simp only [processLine]
    split
    · exact h
    · split <;> simpa using h

theorem processLine_cache (w : Bool) (m : Nat) (st : AgentProcess) (ln : RawLine) :
    ∃ t, (processLine w m st ln).eventsCache = st.eventsCache ++ t := by
  cases ln with
  | sentinel code =>
    simp only [processLine]
    exact ⟨[], by simp⟩
  | jsonEvent events ts =>
    simp only [processLine]
    exact foldl_preserves
      (P := fun (x : AgentProcess) => ∃ t, x.eventsCache = st.eventsCache ++ t)
      (fun a b hp => by
        obtain ⟨t1, ht1⟩ := hp
        obtain ⟨t2, ht2⟩ := applyEvent_cache (ts.getD m) a b
        exact ⟨t1 ++ t2, by rw [ht2, ht1, List.append_assoc]⟩)
      events st ⟨[], by simp⟩
  | text line =>
    simp only [processLine]
    split
    · exact ⟨[], by simp⟩
    · split
      · exact ⟨_, rfl⟩
      · exact ⟨_, rfl⟩

theorem readNewEvents_none (w : Bool) (a : AgentProcess) :
    readNewEvents w none a = a := rfl

theorem readNewEvents_fields (w : Bool) (log : Option LogFile) (a : AgentProcess) :
    (readNewEvents w log a).pid = a.pid ∧
    (readNewEvents w log a).startedAtMs = a.startedAtMs := by
  cases log with
  | none => exact ⟨rfl, rfl⟩
  | some lf =>
    simp only [readNewEvents]
    split
    · exact ⟨rfl, rfl⟩
    · refine foldl_preserves
        (P := fun (x : AgentProcess) => x.pid = a.pid ∧ x.startedAtMs = a.startedAtMs)
        ?_ _ _ ⟨rfl, rfl⟩
      intro x b hp
      obtain ⟨_, h2, h3⟩ := processLine_fields w lf.mtimeMs x b
      exact ⟨h2.trans hp.1, h3.trans hp.2⟩

theorem readNewEvents_pos (w : Bool) (lf : LogFile) (a : AgentProcess) :
    (readNewEvents w (some lf) a).lastReadPos =
      (if (lf.lines.drop a.lastReadPos).isEmpty then a.lastReadPos
       else lf.lines.length) := by
  simp only [readNewEvents]
  split
  · simp [*]
  · refine foldl_preserves
      (P := fun (x : AgentProcess) => x.lastReadPos = lf.lines.length) ?_ _ _ rfl
    intro x b hp
    exact ((processLine_fields w lf.mtimeMs x b).1).trans hp

theorem readNewEvents_pos_ge (w : Bool) (log : Option LogFile) (a : AgentProcess) :
    a.lastReadPos ≤ (readNewEvents w log a).lastReadPos := by
  cases log with
  | none => exact Nat.le_refl _
  | some lf =>
    rw [readNewEvents_pos]
    split
    · exact Nat.le_refl _
    · rename_i h
      have : ¬ lf.lines.length ≤ a.lastReadPos := by
        intro hle
        exact h (by simp [List.isEmpty_iff, List.drop_eq_nil_iff.mpr hle])
      omega

theorem readNew_drop_empty (w : Bool) (lf : LogFile) (a : AgentProcess) :
    lf.lines.drop (readNewEvents w (some lf) a).lastReadPos = [] := by
  rw [readNewEvents_pos]
  split
  · rename_i h
    simpa [List.isEmpty_iff] using h
  · exact List.drop_length _

theorem readNew_of_drop_empty (w : Bool) (lf : LogFile) (b : AgentProcess)
    (h : lf.lines.drop b.lastReadPos = []) : readNewEvents w (some lf) b = b := by
  simp [readNewEvents, h]

theorem readNewEvents_idem (w : Bool) (log : Option LogFile) (a : AgentProcess) :
    readNewEvents w log (readNewEvents w log a) = readNewEvents w log a := by
  cases log with
  | none => rfl
  | some lf => exact readNew_of_drop_empty w lf _ (readNew_drop_empty w lf a)

theorem readNewEvents_not_running {w : Bool} {log : Option LogFile} {a : AgentProcess}
    (h : a.status ≠ .running) : (readNewEvents w log a).status ≠ .running := by
  cases log with
  | none => exact h
  | some lf =>
    simp only [readNewEvents]
    split
    · exact h
    · exact foldl_preserves (P := fun (x : AgentProcess) => x.status ≠ .running)
        (fun x b hp => processLine_not_running hp) _ _ h

theorem readNewEvents_completion {w : Bool} {log : Option LogFile} {a : AgentProcess}
    (h : a.status = .running ∨ a.completedAtMs ≠ none) :
    (readNewEvents w log a).status = .running ∨
      (readNewEvents w log a).completedAtMs ≠ none := by
  cases log with
  | none => exact h
  | some lf =>
    simp only [readNewEvents]
    split
    · exact h
    · exact foldl_preserves
        (P := fun (x : AgentProcess) => x.status = .running ∨ x.completedAtMs ≠ none)
        (fun x b hp => processLine_completion hp) _ _ h

theorem readNewEvents_cache (w : Bool) (log : Option LogFile) (a : AgentProcess) :
    ∃ t, (readNewEvents w log a).eventsCache = a.eventsCache ++ t := by
  cases log with
  | none => exact ⟨[], by simp [readNewEvents_none]⟩
  | some lf =>
    simp only [readNewEvents]
    split
    · exact ⟨[], by simp⟩
    · refine foldl_preserves
        (P := fun (x : AgentProcess) => ∃ t, x.eventsCache = a.eventsCache ++ t)
        ?_ _ _ ⟨[], by simp⟩
      intro x b hp
      obtain ⟨t1, ht1⟩ := hp
      obtain ⟨t2, ht2⟩ := processLine_cache w lf.mtimeMs x b
      exact ⟨t1 ++ t2, by rw [ht2, ht1, List.append_assoc]⟩

theorem stable_drop_empty {w : Bool} {lf : LogFile} {b : AgentProcess}
    (hb : readNewEvents w (some lf) b = b) : lf.lines.drop b.lastReadPos = [] := by
  by_cases h : (lf.lines.drop b.lastReadPos).isEmpty
  · simpa [List.isEmpty_iff] using h
  · have hpos := readNewEvents_pos w lf b
    rw [hb, if_neg h] at hpos
    rw [hpos]
    exact List.drop_length _

theorem stable_of_same_pos {w : Bool} {log : Option LogFile} {b c : AgentProcess}
    (hb : readNewEvents w log b = b) (hpos : c.lastReadPos = b.lastReadPos) :
    readNewEvents w log c = c := by
  cases log with
  | none => rfl
  | some lf =>
    apply readNew_of_drop_empty
    rw [hpos]
    exact stable_drop_empty hb

theorem update_pid_none (w : Bool) (alive : Nat → Bool) (log : Option LogFile)
    (a : AgentProcess) (hp : a.pid = none) :
    updateStatusFromProcess w alive log a = (a, []) := by
  simp [updateStatusFromProcess, hp]

theorem update_alive (w : Bool) (alive : Nat → Bool) (log : Option LogFile)
    (a : AgentProcess) (p : Nat) (hp : a.pid = some p) (hal : alive p = true) :
    updateStatusFromProcess w alive log a = (readNewEvents w log a, []) := by
  simp [updateStatusFromProcess, hp, hal]

theorem update_dead_terminal (w : Bool) (alive : Nat → Bool) (log : Option LogFile)
    (a : AgentProcess) (p : Nat) (hp : a.pid = some p) (hal : alive p = false)
    (hs : a.status ≠ .running) (hc : a.completedAtMs ≠ none) :
    updateStatusFromProcess w alive log a = (a, [saveMeta a]) := by
  simp [updateStatusFromProcess, hp, hal, hs, hc]

theorem update_dead_running (w : Bool) (alive : Nat → Bool) (log : Option LogFile)
    (a : AgentProcess) (p : Nat) (hp : a.pid = some p) (hal : alive p = false)
    (hstable : readNewEvents w log a = a) (h1 : a.status = .running) :
    updateStatusFromProcess w alive log a =
      ({ a with status := AgentStatus.failed, completedAtMs := some ((getLatestEventTime a).getD a.startedAtMs) },
        [saveMeta { a with status := AgentStatus.failed, completedAtMs := some ((getLatestEventTime a).getD a.startedAtMs) }]) := by
  simp only [updateStatusFromProcess, hp, hal, hstable, reapProcess, h1]
  norm_num
  simp

theorem update_dead_pending (w : Bool) (alive : Nat → Bool) (log : Option LogFile)
    (a : AgentProcess) (p : Nat) (hp : a.pid = some p) (hal : alive p = false)
    (hstable : readNewEvents w log a = a) (h1 : a.status ≠ .running)
    (h2 : a.completedAtMs = none) :
    updateStatusFromProcess w alive log a =
      ({ a with completedAtMs := some ((getLatestEventTime a).getD a.startedAtMs) },
        [saveMeta { a with completedAtMs := some ((getLatestEventTime a).getD a.startedAtMs) }]) := by
  simp only [updateStatusFromProcess, hp, hal, hstable, reapProcess, h1, h2]
  norm_num

theorem update_dead (w : Bool) (alive : Nat → Bool) (log : Option LogFile)
    (a : AgentProcess) (p : Nat) (hp : a.pid = some p) (hal : alive p = false)
    (hstable : readNewEvents w log a = a) :
    ∃ u : AgentProcess,
      updateStatusFromProcess w alive log a = (u, [saveMeta u]) ∧
      u.pid = a.pid ∧ u.lastReadPos = a.lastReadPos ∧
      u.status ≠ .running ∧ u.completedAtMs ≠ none ∧
      u.eventsCache = a.eventsCache := by
  by_cases h1 : a.status = .running
  · exact ⟨_, update_dead_running w alive log a p hp hal hstable h1,
      rfl, rfl, by simp, by simp, rfl⟩
  · by_cases h2 : a.completedAtMs = none
    · exact ⟨_, update_dead_pending w alive log a p hp hal hstable h1 h2,
        rfl, rfl, by simpa using h1, by simp, rfl⟩
    · exact ⟨a, update_dead_terminal w alive log a p hp hal h1 h2,
        rfl, rfl, h1, h2, rfl⟩

/-- C8, counterexample to the claim as stated: for a record whose pid is
set and whose process is dead, the second run of the status-reconciliation
path does rewrite the persisted meta file (the dead-process branch of
`updateStatusFromProcess` calls `saveMeta` unconditionally), even though
no new log bytes arrived and the written content is unchanged. -/
theorem claim8_second_reconcile_rewrites_meta :
    (reconcile false (fun _ => false) none
      ((reconcile false (fun _ => false) none
        { agentId := "a1", taskName := "t", agentType := AgentType.codex,
          prompt := "p", pid := some 3, startedAtMs := 100 }).1)).2 ≠ [] := by
  decide

/-- C8 (amended): running the status-reconciliation path
(`readNewEvents` followed by `updateStatusFromProcess`) a second time with
no new log bytes returns exactly the first run's record and performs
exactly the first run's writes: no additional event enters the cache, the
read offset stays put (and is monotone across any run, the cache
append-only); no meta write happens when the record has no pid or its
process is alive, while with a dead pid each run rewrites the meta file
once with identical content. -/
theorem claim8_reconcile_idempotent (w : Bool) (alive : Nat → Bool)
    (log : Option LogFile) (a : AgentProcess) :
    reconcile w alive log (reconcile w alive log a).1 = reconcile w alive log a ∧
    a.lastReadPos ≤ (reconcile w alive log a).1.lastReadPos ∧
    (∃ t, (reconcile w alive log a).1.eventsCache = a.eventsCache ++ t) ∧
    (reconcile w alive log a).2 =
      (match a.pid with
       | none => []
       | some p => if alive p then [] else [saveMeta (reconcile w alive log a).1]) := by
  have hstable : readNewEvents w log (readNewEvents w log a) = readNewEvents w log a :=
    readNewEvents_idem w log a
  have hpid : (readNewEvents w log a).pid = a.pid := (readNewEvents_fields w log a).1
  cases hp : a.pid with
  | none =>
    have h1 : updateStatusFromProcess w alive log (readNewEvents w log a) =
        (readNewEvents w log a, []) :=
      update_pid_none w alive log _ (hpid.trans hp)
    refine ⟨?_, ?_, ?_, ?_⟩
    · simp only [reconcile, h1, hstable]
    · simp only [reconcile, h1]
      exact readNewEvents_pos_ge w log a
    · simp only [reconcile, h1]
      exact readNewEvents_cache w log a
    · simp only [reconcile, h1, hp]
  | some p =>
    have hpid1 : (readNewEvents w log a).pid = some p := hpid.trans hp
    cases hal : alive p with
    | true =>
      have h1 : updateStatusFromProcess w alive log (readNewEvents w log a) =
          (readNewEvents w log a, []) := by
        rw [update_alive w alive log _ p hpid1 hal, hstable]
      refine ⟨?_, ?_, ?_, ?_⟩
      · simp only [reconcile, h1, hstable]
      · simp only [reconcile, h1]
        exact readNewEvents_pos_ge w log a
      · simp only [reconcile, h1]
        exact readNewEvents_cache w log a
      · simp only [reconcile, h1, hp, hal, if_true]
    | false =>
      obtain ⟨u, hu, hupid, hupos, hust, huc, hucache⟩ :=
        update_dead w alive log (readNewEvents w log a) p hpid1 hal hstable
      have hustable : readNewEvents w log u = u := stable_of_same_pos hstable hupos
      have h2 : updateStatusFromProcess w alive log u = (u, [saveMeta u]) :=
        update_dead_terminal w alive log u p (hupid.trans hpid1) hal hust huc
      refine ⟨?_, ?_, ?_, ?_⟩
      · simp only [reconcile, hu, hustable, h2]
      · simp only [reconcile, hu]
        rw [hupos]
        exact readNewEvents_pos_ge w log a
      · simp only [reconcile, hu]
        rw [hucache]
        exact readNewEvents_cache w log a
      · simp [reconcile, hu, hp, hal]

theorem update_not_running {w : Bool} {alive : Nat → Bool} {log : Option LogFile}
    {a : AgentProcess} (h : a.status ≠ .running) :
    (updateStatusFromProcess w alive log a).1.status ≠ .running := by
  simp only [updateStatusFromProcess]
  cases hp : a.pid with
  | none => exact h
  | some p =>
    by_cases hal : alive p
    · simp only [hal, if_true]
      exact readNewEvents_not_running h
    · simp only [hal, if_false, if_neg h]
      by_cases h2 : a.completedAtMs = none
      · simp only [h2, if_pos rfl]
        exact readNewEvents_not_running h
      · simp only [if_neg h2]
        exact h

theorem update_completion {w : Bool} {alive : Nat → Bool} {log : Option LogFile}
    {a : AgentProcess} (h : a.status = .running ∨ a.completedAtMs ≠ none) :
    (updateStatusFromProcess w alive log a).1.status = .running ∨
      (updateStatusFromProcess w alive log a).1.completedAtMs ≠ none := by
  simp only [updateStatusFromProcess]
  cases hp : a.pid with
  | none => exact h
  | some p =>
    by_cases hal : alive p
    · simp only [hal, if_true]
      exact readNewEvents_completion h
    · simp only [hal, if_false]
      by_cases h1 : a.status = .running
      · simp only [h1, if_pos rfl]
        by_cases h3 : (readNewEvents w log a).status = .running
        · simp only [h3, if_pos rfl]
          right
          simp
        · simp only [if_neg h3]
          rcases @readNewEvents_completion w log a h with h4 | h4
          · exact absurd h4 h3
          · exact Or.inr h4
      · simp only [if_neg h1]
        by_cases h2 : a.completedAtMs = none
        · simp only [h2, if_pos rfl]
          right
          simp
        · simp only [if_neg h2]
          exact Or.inr h2

/-- C2, counterexample to the claim as stated: a record already in the
terminal state `failed` (completion time 5) whose log later yields a
success `result` event is flipped to `completed` by `readNewEvents`, and
its `completed_at` moves to the event timestamp — `readNewEvents` applies
terminal events unconditionally, so a terminal state can be left and
`completed_at` rewritten. -/
theorem claim2_terminal_state_not_absorbing :
    (readNewEvents false
        (some { lines := [RawLine.jsonEvent [{ type := "result", status := some "success" }] (some 50)],
                mtimeMs := 99 })
        { agentId := "a1", taskName := "t", agentType := AgentType.codex, prompt := "p",
          status := AgentStatus.failed, completedAtMs := some 5 }).status =
      AgentStatus.completed ∧
    (readNewEvents false
        (some { lines := [RawLine.jsonEvent [{ type := "result", status := some "success" }] (some 50)],
                mtimeMs := 99 })
        { agentId := "a1", taskName := "t", agentType := AgentType.codex, prompt := "p",
          status := AgentStatus.failed, completedAtMs := some 5 }).completedAtMs = some 50 := by
  constructor <;> rfl

/-- C2 (amended): across the operations that touch a record's status
(`readNewEvents`, `updateStatusFromProcess`, `stop`), a record never
returns to `running` once it has left it, and whenever an operation moves
a record out of `running`, `completed_at` is non-null immediately after
that transition. However (see the counterexample) a later terminal log
event can replace one terminal status with another and update
`completed_at`; only the transition out of `running` is permanent. -/
theorem claim2_status_forward_only (w : Bool) (alive : Nat → Bool)
    (log : Option LogFile) (nowMs : Nat) (a : AgentProcess) :
    ((readNewEvents w log a).status = .running → a.status = .running) ∧
    (a.status = .running → (readNewEvents w log a).status ≠ .running →
      (readNewEvents w log a).completedAtMs ≠ none) ∧
    ((updateStatusFromProcess w alive log a).1.status = .running → a.status = .running) ∧
    (a.status = .running → (updateStatusFromProcess w alive log a).1.status ≠ .running →
      (updateStatusFromProcess w alive log a).1.completedAtMs ≠ none) ∧
    ((stopAgent nowMs a).1.status = .running → a.status = .running) ∧
    (a.status = .running → (stopAgent nowMs a).1.status ≠ .running →
      (stopAgent nowMs a).1.completedAtMs ≠ none) := by
  refine ⟨?_, ?_, ?_, ?_, ?_, ?_⟩
  · intro h
    by_contra hne
    exact readNewEvents_not_running hne h
  · intro h1 h2
    rcases @readNewEvents_completion w log a (Or.inl h1) with h | h
    · exact absurd h h2
    · exact h
  · intro h
    by_contra hne
    exact update_not_running hne h
  · intro h1 h2
    rcases @update_completion w alive log a (Or.inl h1) with h | h
    · exact absurd h h2
    · exact h
  · intro h
    simp only [stopAgent] at h
    by_contra hne
    rw [if_neg (fun hc => hne hc.2)] at h
    exact hne h
  · intro h1 h2
    simp only [stopAgent] at h2 ⊢
    by_cases hc : jsOrNullNat a.pid ≠ none ∧ a.status = .running
    · rw [if_pos hc]
      simp
    · rw [if_neg hc] at h2
      exact absurd h1 h2

/-- C2 witness: a concrete running record that a success `result` event
moves out of `running`; the amended theorem yields a non-null
`completed_at` right after the transition. -/
theorem claim2_status_forward_only_witness :
    (readNewEvents false
        (some { lines := [RawLine.jsonEvent [{ type := "result", status := some "success" }] (some 7)],
                mtimeMs := 9 })
        { agentId := "w2", taskName := "t", agentType := AgentType.codex,
          prompt := "p" }).completedAtMs ≠ none :=
  (claim2_status_forward_only false (fun _ => false)
      (some { lines := [RawLine.jsonEvent [{ type := "result", status := some "success" }] (some 7)],
              mtimeMs := 9 }) 0
      { agentId := "w2", taskName := "t", agentType := AgentType.codex,
        prompt := "p" }).2.1 rfl (by decide)

/-- C7: when the new portion of the log ends with the launch wrapper's
exit-code sentinel (the wrapper appends it as the final line),
`readNewEvents` sets the record's status to `completed` for exit code 0
and `failed` otherwise, with the completion time taken from the log
file's last-modified time. -/
theorem claim7_exit_code_sentinel (w : Bool) (a : AgentProcess) (lf : LogFile)
    (pre : List RawLine) (code : Int)
    (h : lf.lines.drop a.lastReadPos = pre ++ [RawLine.sentinel code]) :
    (readNewEvents w (some lf) a).status =
      (if code = 0 then AgentStatus.completed else AgentStatus.failed) ∧
    (readNewEvents w (some lf) a).completedAtMs = some lf.mtimeMs := by
  have hstep : readNewEvents w (some lf) a =
      (pre ++ [RawLine.sentinel code]).foldl (processLine w lf.mtimeMs)
        { a with lastReadPos := lf.lines.length } := by
    simp [readNewEvents, h]
  rw [hstep, List.foldl_append]
  constructor
  · simp [processLine]
  · simp [processLine]

/-- C7 witness: concrete logs whose final new line is the sentinel with
exit code 0 (completed, completion time = mtime 5) and exit code 2
(failed). -/
theorem claim7_exit_code_sentinel_witness :
    ((readNewEvents false (some { lines := [RawLine.sentinel 0], mtimeMs := 5 })
        { agentId := "w7", taskName := "t", agentType := AgentType.codex,
          prompt := "p" }).status = AgentStatus.completed ∧
      (readNewEvents false (some { lines := [RawLine.sentinel 0], mtimeMs := 5 })
        { agentId := "w7", taskName := "t", agentType := AgentType.codex,
          prompt := "p" }).completedAtMs = some 5) ∧
    (readNewEvents false (some { lines := [RawLine.sentinel 2], mtimeMs := 5 })
        { agentId := "w7", taskName := "t", agentType := AgentType.codex,
          prompt := "p" }).status = AgentStatus.failed := by
  have h0 := claim7_exit_code_sentinel false
    { agentId := "w7", taskName := "t", agentType := AgentType.codex, prompt := "p" }
    { lines := [RawLine.sentinel 0], mtimeMs := 5 } [] 0 (by rfl)
  have h2 := claim7_exit_code_sentinel false
    { agentId := "w7", taskName := "t", agentType := AgentType.codex, prompt := "p" }
    { lines := [RawLine.sentinel 2], mtimeMs := 5 } [] 2 (by rfl)
  refine ⟨⟨?_, h0.2⟩, ?_⟩
  · rw [h0.1]
    norm_num
  · rw [h2.1]
    norm_num

/-- C9: the string enum object has only upper-case keys, while `saveMeta`
writes the lower-case enum values, so for every persisted record the
lookup `AgentStatus[meta.status]` is undefined and `loadFromDisk` falls
back to `running`, whatever the stored terminal status was. -/
theorem claim9_load_status_always_running (a : AgentProcess) :
    agentStatusEnumLookup (saveMeta a).status = none ∧
    (loadFromDisk (saveMeta a)).status = AgentStatus.running := by
  cases h : a.status <;>
    simp [saveMeta, loadFromDisk, agentStatusEnumLookup, statusOfStr,
      AgentStatus.toStr, h]

/-- C4, counterexample to the claim as stated: a record whose
`workspace_dir` is the empty string is reloaded with `workspace_dir =
null` (the loader's `meta.workspace_dir || null` defaulting treats the
empty string as falsy), so the round-trip is not the identity on that
field. -/
theorem claim4_empty_workspace_dir_not_roundtripped :
    (loadFromDisk (saveMeta
        { agentId := "a4", taskName := "t", agentType := AgentType.codex,
          prompt := "p", workspaceDir := some "" })).workspaceDir ≠
      ({ agentId := "a4", taskName := "t", agentType := AgentType.codex,
          prompt := "p", workspaceDir := some "" } : AgentProcess).workspaceDir := by
  decide

/-- C4 (amended): for every record whose `workspace_dir` is not the empty
string (the loader's falsiness defaulting collapses an empty string to
null), writing the record with `saveMeta` and reloading it with
`loadFromDisk` yields identical `session_id`, `conversation_turn`,
`original_agent_id`, `reply_agent_ids` and `workspace_dir` values. -/
theorem claim4_meta_roundtrip (a : AgentProcess) (h : a.workspaceDir ≠ some "") :
    (loadFromDisk (saveMeta a)).conv.sessionId = a.conv.sessionId ∧
    (loadFromDisk (saveMeta a)).conv.conversationTurn = a.conv.conversationTurn ∧
    (loadFromDisk (saveMeta a)).conv.originalAgentId = a.conv.originalAgentId ∧
    (loadFromDisk (saveMeta a)).conv.replyAgentIds = a.conv.replyAgentIds ∧
    (loadFromDisk (saveMeta a)).workspaceDir = a.workspaceDir := by
  refine ⟨rfl, rfl, rfl, rfl, ?_⟩
  show jsOrNullStr a.workspaceDir = a.workspaceDir
  cases hw : a.workspaceDir with
  | none => rfl
  | some s =>
    have hs : s ≠ "" := fun he => h (by rw [hw, he])
    simp [jsOrNullStr, hs]

/-- C4 witness: a concrete record carrying a session id, turn 1, an
original agent id, one reply id and a non-empty workspace directory
round-trips all five fields unchanged. -/
theorem claim4_meta_roundtrip_witness :
    (loadFromDisk (saveMeta
        { agentId := "w4", taskName := "t", agentType := AgentType.claude,
          prompt := "p", workspaceDir := some "/w",
          conv := { sessionId := some "sess", conversationTurn := 1,
                    originalAgentId := some "orig", replyAgentIds := ["r1"] } })).conv.sessionId =
      some "sess" ∧
    (loadFromDisk (saveMeta
        { agentId := "w4", taskName := "t", agentType := AgentType.claude,
          prompt := "p", workspaceDir := some "/w",
          conv := { sessionId := some "sess", conversationTurn := 1,
                    originalAgentId := some "orig", replyAgentIds := ["r1"] } })).workspaceDir =
      some "/w" := by
  have h := claim4_meta_roundtrip
    { agentId := "w4", taskName := "t", agentType := AgentType.claude,
      prompt := "p", workspaceDir := some "/w",
      conv := { sessionId := some "sess", conversationTurn := 1,
                originalAgentId := some "orig", replyAgentIds := ["r1"] } }
    (by decide)
  exact ⟨h.1, h.2.2.2.2⟩

/-- C1: the code evaluated at the failing input. A record with pid 3,
status `running`, an empty event cache and a dead process: the
reconciliation pass `updateStatusFromProcess` marks it `failed` (its
`reapProcess` returns 1 for any dead process, and a nonzero code selects
FAILED), with the claimed fallback completion time (the start time);
whereas the status-query path `getTaskAgents` reports the same persisted
record as `completed`, as the claim and the spec require. -/
theorem claim1_dead_silent_agent_divergence :
    ((updateStatusFromProcess false (fun _ => false) none
        { agentId := "a1", taskName := "t", agentType := AgentType.codex,
          prompt := "p", pid := some 3, startedAtMs := 100 }).1.status =
      AgentStatus.failed ∧
      (updateStatusFromProcess false (fun _ => false) none
        { agentId := "a1", taskName := "t", agentType := AgentType.codex,
          prompt := "p", pid := some 3, startedAtMs := 100 }).1.completedAtMs =
        some 100) ∧
    getTaskAgents (fun _ => false)
        [("a1", some (saveMeta
          { agentId := "a1", taskName := "t", agentType := AgentType.codex,
            prompt := "p", pid := some 3, startedAtMs := 100 }))] "t" =
      [{ agent_id := "a1", status := "completed" }] := by
  decide

/-- C5: the code evaluated at the failing input. The compiled
`AgentManager.initialize` has no memoization, so the `get` path (which
awaits `initialize`) re-runs the `loadExistingAgents` directory scan
(`scans = 1` for this single call, on a manager already initialized
once) and overwrites the in-memory record from disk: the reply id added
in memory is lost (`replyAgentIds` comes back empty), exactly the
scenario the repository's own initialize-idempotence test forbids. -/
theorem claim5_reinitialize_rescans_eval :
    ((mapGet c5Tampered.agents "idem").map (fun x => x.conv.replyAgentIds)) =
      some ["reply-1"] ∧
    (getAgent c5Env c5Tampered "idem").2.1.scans = 1 ∧
    ((getAgent c5Env c5Tampered "idem").2.2.map (fun x => x.conv.replyAgentIds)) =
      some [] := by
  refine ⟨by decide, by decide, by decide⟩

theorem managerInit_cfg (env : Env) (st : ManagerState) :
    (managerInit env st).1.cfg = st.cfg := rfl

theorem listAllOp_cfg (env : Env) (st : ManagerState) :
    (listAllOp env st).1.cfg = st.cfg := rfl

theorem loadOneAgent_createdDirs (env : Env) (cfg : ManagerConfig)
    (acc : List (String × AgentProcess) × Trace) (e : String × Option MetaJson)
    (h : acc.2.createdDirs = []) :
    (loadOneAgent env cfg acc e).2.createdDirs = [] := by
  simp only [loadOneAgent]
  rcases e with ⟨name, m⟩
  cases m with
  | none => exact h
  | some mj =>
    dsimp only
    split
    · simpa using h
    · split
      · exact h
      · simpa using h

theorem managerInit_createdDirs (env : Env) (st : ManagerState) :
    (managerInit env st).2.createdDirs = [] := by
  show (env.disk.foldl (loadOneAgent env st.cfg) (st.agents, Trace.empty)).2.createdDirs = []
  exact foldl_preserves
    (P := fun (r : List (String × AgentProcess) × Trace) => r.2.createdDirs = [])
    (fun r e hr => loadOneAgent_createdDirs env st.cfg r e hr)
    env.disk (st.agents, Trace.empty) rfl

theorem spawnLaunch_not_concurrency (env : Env) (st2 : ManagerState) (tr : Trace)
    (taskName : String) (agentType : AgentType) (prompt : String)
    (resolvedCwd : Option String) (resolvedMode : Mode)
    (psid wdir : Option String) (model : String) (k : Nat) :
    (spawnLaunch env st2 tr taskName agentType prompt resolvedCwd resolvedMode
        psid wdir model).2.2 ≠ .error (.concurrencyLimit k) := by
  simp only [spawnLaunch]
  rcases hbc : buildCommand env.homedirPath env.cfgCommand agentType prompt
      resolvedMode model resolvedCwd with msg | cmd <;> simp

theorem spawn_concurrency_branch (env : Env) (st : ManagerState)
    (taskName : String) (agentType : AgentType) (prompt : String)
    (cwd : Option String) (mode : Option Mode) (psid wdir : Option String)
    (model : String)
    (h : runningCount (listAllOp env (managerInit env st).1).1.agents ≥
      (listAllOp env (managerInit env st).1).1.cfg.maxConcurrent) :
    spawn env st taskName agentType prompt cwd mode psid wdir model =
      ((listAllOp env (managerInit env st).1).1,
        { (managerInit env st).2 with
          metaWrites := (managerInit env st).2.metaWrites ++
            (listAllOp env (managerInit env st).1).2 },
        .error (.concurrencyLimit
          (listAllOp env (managerInit env st).1).1.cfg.maxConcurrent)) := by
  rcases hmi : managerInit env st with ⟨st1, tr1⟩
  rcases hla : listAllOp env st1 with ⟨st2, w2⟩
  simp only [hmi, hla] at h ⊢
  simp only [spawn, hmi, hla]
  rw [if_pos h]

theorem spawn_pass_branch (env : Env) (st : ManagerState)
    (taskName : String) (agentType : AgentType) (prompt : String)
    (cwd : Option String) (mode : Option Mode) (psid wdir : Option String)
    (model : String)
    (h : ¬ (runningCount (listAllOp env (managerInit env st).1).1.agents ≥
      (listAllOp env (managerInit env st).1).1.cfg.maxConcurrent)) (k : Nat) :
    (spawn env st taskName agentType prompt cwd mode psid wdir model).2.2 ≠
      .error (.concurrencyLimit k) := by
  rcases hmi : managerInit env st with ⟨st1, tr1⟩
  rcases hla : listAllOp env st1 with ⟨st2, w2⟩
  simp only [hmi, hla] at h
  simp only [spawn, hmi, hla]
  rw [if_neg h]
  by_cases hcli : env.cliAvailable agentType = true
  · rw [if_neg (by simp [hcli])]
    cases cwd with
    | none => exact spawnLaunch_not_concurrency env _ _ _ _ _ _ _ _ _ _ k
    | some c =>
      rcases hsp : env.statPath c with _ | b
      · simp [hsp]
      · cases b
        · simp [hsp]
        · simp only [hsp]
          exact spawnLaunch_not_concurrency env _ _ _ _ _ _ _ _ _ _ k
  · rw [if_pos (by simp [hcli])]
    simp

/-- C3: spawn admission control. With the running count taken at the
moment the code checks it (after `initialize` re-loads the store and
`listRunning` reconciles every record): at or above the ceiling, `spawn`
fails with the concurrency-limit error, creates no agent directory,
tracks no new record (the post-state is exactly the reconciliation
pass's), and writes no meta beyond those of the reconciliation refresh
itself; below the ceiling, `spawn` is admitted past the concurrency
check — whatever happens later, the result is never the concurrency-limit
error. -/
theorem claim3_spawn_concurrency_gate (env : Env) (st : ManagerState)
    (taskName : String) (agentType : AgentType) (prompt : String)
    (cwd : Option String) (mode : Option Mode) (psid wdir : Option String)
    (model : String) :
    (runningCount (listAllOp env (managerInit env st).1).1.agents ≥
        st.cfg.maxConcurrent →
      (spawn env st taskName agentType prompt cwd mode psid wdir model).2.2 =
        .error (.concurrencyLimit st.cfg.maxConcurrent) ∧
      (spawn env st taskName agentType prompt cwd mode psid wdir model).2.1.createdDirs = [] ∧
      (spawn env st taskName agentType prompt cwd mode psid wdir model).1 =
        (listAllOp env (managerInit env st).1).1 ∧
      (spawn env st taskName agentType prompt cwd mode psid wdir model).2.1.metaWrites =
        (managerInit env st).2.metaWrites ++ (listAllOp env (managerInit env st).1).2) ∧
    (runningCount (listAllOp env (managerInit env st).1).1.agents <
        st.cfg.maxConcurrent →
      ∀ k, (spawn env st taskName agentType prompt cwd mode psid wdir model).2.2 ≠
        .error (.concurrencyLimit k)) := by
  have hcfg : (listAllOp env (managerInit env st).1).1.cfg.maxConcurrent =
      st.cfg.maxConcurrent := by
    rw [listAllOp_cfg, managerInit_cfg]
  constructor
  · intro h
    have h' : runningCount (listAllOp env (managerInit env st).1).1.agents ≥
        (listAllOp env (managerInit env st).1).1.cfg.maxConcurrent := by
      rw [hcfg]; exact h
    have hs := spawn_concurrency_branch env st taskName agentType prompt cwd mode
      psid wdir model h'
    refine ⟨?_, ?_, ?_, ?_⟩
    · rw [hs]
      simp only [hcfg]
    · rw [hs]
      simpa using managerInit_createdDirs env st
    · rw [hs]
    · rw [hs]
  · intro h k
    have h' : ¬ (runningCount (listAllOp env (managerInit env st).1).1.agents ≥
        (listAllOp env (managerInit env st).1).1.cfg.maxConcurrent) := by
      rw [hcfg]; omega
    exact spawn_pass_branch env st taskName agentType prompt cwd mode psid wdir
      model h' k

/-- C3 witness: with one live running agent, a manager whose ceiling is 1
rejects the next spawn with the concurrency-limit error, and a manager
whose ceiling is 2 passes the concurrency check (its spawn result is not
the concurrency-limit error). -/
theorem claim3_spawn_concurrency_gate_witness :
    (spawn c3Env c3StAtCeiling "t" AgentType.codex "p" none none none none "m").2.2 =
      .error (.concurrencyLimit 1) ∧
    (spawn c3Env c3StBelow "t" AgentType.codex "p" none none none none "m").2.2 ≠
      .error (.concurrencyLimit 2) := by
  constructor
  · exact ((claim3_spawn_concurrency_gate c3Env c3StAtCeiling "t" AgentType.codex "p"
      none none none none "m").1 (by decide)).1
  · exact (claim3_spawn_concurrency_gate c3Env c3StBelow "t" AgentType.codex "p"
      none none none none "m").2 (by decide) 2

/-- C6: command-compiler guardrails. (1) Whatever template `buildCommand`
starts from (built-in or caller override, via `baseTemplateOf`), if no
token carries the `{prompt}` marker the result is the configuration
error, whose message names the offending agent kind and the expected
marker (part 3). (2) If the prompt-substituted template's first token is
not a recognized executable for the kind, the result is exactly the
substituted template, with no mode, model or headless flag injected. -/
theorem claim6_build_command_guardrails :
    (∀ (hd : String) (cfg : AgentType → Option String) (t : AgentType)
        (prompt : String) (mode : Mode) (model : String) (cwd : Option String)
        (toks : List String),
      baseTemplateOf cfg t = .ok toks →
      (toks.any fun part => strContainsSub part "{prompt}") = false →
      buildCommand hd cfg t prompt mode model cwd = .error (missingPlaceholderMsg t)) ∧
    (∀ (hd : String) (cfg : AgentType → Option String) (t : AgentType)
        (prompt : String) (mode : Mode) (model : String) (cwd : Option String)
        (toks : List String),
      baseTemplateOf cfg t = .ok toks →
      (toks.any fun part => strContainsSub part "{prompt}") = true →
      isCompatibleAgentCli t
        ((toks.map fun part => strReplaceAll part "{prompt}" (fullPromptOf t prompt mode)).headD "") =
        false →
      buildCommand hd cfg t prompt mode model cwd =
        .ok (toks.map fun part => strReplaceAll part "{prompt}" (fullPromptOf t prompt mode))) ∧
    (∀ t : AgentType,
      strContainsSub (missingPlaceholderMsg t) t.toStr = true ∧
      strContainsSub (missingPlaceholderMsg t) "{prompt}" = true) := by
  refine ⟨?_, ?_, ?_⟩
  · intro hd cfg t prompt mode model cwd toks h h2
    simp only [buildCommand, h]
    rw [if_pos (by simp [h2])]
  · intro hd cfg t prompt mode model cwd toks h h2 h3
    simp only [buildCommand, h]
    rw [if_neg (by simp [h2])]
    have hcond : (!(isCompatibleAgentCli t
        ((toks.map fun part => strReplaceAll part "{prompt}" (fullPromptOf t prompt mode)).headD ""))) = true := by
      rw [h3]
      rfl
    rw [if_pos hcond]
  · intro t
    cases t <;> exact ⟨by decide, by decide⟩

/-- C6 witness: for codex, the override template `my-cli run --json`
(no prompt marker) yields the configuration error naming codex and
`{prompt}`; the override `my-cli run '{prompt}' --json` (unrecognized
first token) is returned verbatim after substitution — no mode, model or
headless flags appear. -/
theorem claim6_build_command_guardrails_witness :
    buildCommand "/home/u" (fun _ => some "my-cli run --json") AgentType.codex
        "P" Mode.plan "m1" none = .error (missingPlaceholderMsg AgentType.codex) ∧
    buildCommand "/home/u" (fun _ => some "my-cli run '{prompt}' --json") AgentType.codex
        "P" Mode.plan "m1" none =
      .ok ["my-cli", "run", fullPromptOf AgentType.codex "P" Mode.plan, "--json"] := by
  constructor
  · exact claim6_build_command_guardrails.1 "/home/u" (fun _ => some "my-cli run --json")
      AgentType.codex "P" Mode.plan "m1" none ["my-cli", "run", "--json"]
      (by rfl) (by decide)
  · have h := claim6_build_command_guardrails.2.1 "/home/u"
      (fun _ => some "my-cli run '{prompt}' --json") AgentType.codex
      "P" Mode.plan "m1" none ["my-cli", "run", "{prompt}", "--json"]
      (by rfl) (by decide) (by decide)
    rw [h]
    rfl

theorem str_length_pos_iff (cur : String) : (cur.length > 0) ↔ cur ≠ "" := by
  cases cur with
  | mk l =>
    constructor
    · intro h he
      have hl : l = [] := congrArg String.data he
      rw [hl] at h
      simp at h
    · intro hne
      have hl : l ≠ [] := by
        intro h0
        exact hne (by rw [h0])
      show 0 < l.length
      exact List.length_pos.mpr hl

theorem splitLoop_step_end (s : String) (inS inD : Bool) (cur : String)
    (acc : List String) :
    splitCmdLoop s [] inS inD cur acc =
      (let result1 := if cur.length > 0 then acc ++ [cur] else acc
       if inS || inD then .error (unterminatedMsg s) else .ok result1) := rfl

theorem splitLoop_step_single (s : String) (c : Char) (rest : List Char)
    (inD : Bool) (cur : String) (acc : List String) :
    splitCmdLoop s (c :: rest) true inD cur acc =
      (if c = squoteChar then splitCmdLoop s rest false inD cur acc
       else splitCmdLoop s rest true inD (cur.push c) acc) := by
  cases rest <;> rfl

theorem splitLoop_step_double2 (s : String) (c d : Char) (rest2 : List Char)
    (cur : String) (acc : List String) :
    splitCmdLoop s (c :: d :: rest2) false true cur acc =
      (if c = dquoteChar then splitCmdLoop s (d :: rest2) false false cur acc
       else if c = bslashChar then
         if d = dquoteChar ∨ d = bslashChar then
           splitCmdLoop s rest2 false true (cur.push d) acc
         else splitCmdLoop s (d :: rest2) false true (cur.push c) acc
       else splitCmdLoop s (d :: rest2) false true (cur.push c) acc) := rfl

theorem splitLoop_step_double1 (s : String) (c : Char) (cur : String)
    (acc : List String) :
    splitCmdLoop s [c] false true cur acc =
      (if c = dquoteChar then splitCmdLoop s [] false false cur acc
       else splitCmdLoop s [] false true (cur.push c) acc) := rfl

theorem splitLoop_step_plain (s : String) (c : Char) (rest : List Char)
    (cur : String) (acc : List String) :
    splitCmdLoop s (c :: rest) false false cur acc =
      (if c = squoteChar then splitCmdLoop s rest true false cur acc
       else if c = dquoteChar then splitCmdLoop s rest false true cur acc
       else if c = ' ' ∨ c = '\t' then
         if cur.length > 0 then splitCmdLoop s rest false false "" (acc ++ [cur])
         else splitCmdLoop s rest false false cur acc
       else splitCmdLoop s rest false false (cur.push c) acc) := by
  cases rest <;> rfl

theorem specScan_step_single (c : Char) (rest : List Char) (cur : String)
    (acc : List String) :
    specScan (c :: rest) QMode.insingle cur acc =
      (if c = squoteChar then specScan rest QMode.plain cur acc
       else specScan rest QMode.insingle (cur.push c) acc) := by
  cases rest <;> rfl

theorem specScan_step_double2 (c d : Char) (rest2 : List Char) (cur : String)
    (acc : List String) :
    specScan (c :: d :: rest2) QMode.indouble cur acc =
      (if c = dquoteChar then specScan (d :: rest2) QMode.plain cur acc
       else if c = bslashChar then
         if d = dquoteChar ∨ d = bslashChar then specScan rest2 QMode.indouble (cur.push d) acc
         else specScan (d :: rest2) QMode.indouble (cur.push c) acc
       else specScan (d :: rest2) QMode.indouble (cur.push c) acc) := rfl

theorem specScan_step_double1 (c : Char) (cur : String) (acc : List String) :
    specScan [c] QMode.indouble cur acc =
      (if c = dquoteChar then specScan [] QMode.plain cur acc
       else specScan [] QMode.indouble (cur.push c) acc) := rfl

theorem specScan_step_plain (c : Char) (rest : List Char) (cur : String)
    (acc : List String) :
    specScan (c :: rest) QMode.plain cur acc =
      (if c = squoteChar then specScan rest QMode.insingle cur acc
       else if c = dquoteChar then specScan rest QMode.indouble cur acc
       else if c = ' ' ∨ c = '\t' then
         specScan rest QMode.plain "" (if cur = "" then acc else cur :: acc)
       else specScan rest QMode.plain (cur.push c) acc) := by
  cases rest <;> rfl

theorem splitLoop_end_plain (s : String) (cur : String) (acc : List String) :
    splitCmdLoop s [] false false cur acc =
      (match specScan [] QMode.plain cur acc.reverse with
       | none => Except.error (unterminatedMsg s)
       | some ts => Except.ok ts) := by
  by_cases hc : cur = ""
  · subst hc
    simp [splitCmdLoop, specScan]
  · have hlen : cur.length > 0 := (str_length_pos_iff cur).mpr hc
    simp [splitCmdLoop, specScan, hc, hlen]

theorem splitLoop_eq_spec (s : String) :
    ∀ (n : Nat) (cs : List Char), cs.length ≤ n → ∀ (cur : String) (acc : List String),
      (splitCmdLoop s cs false false cur acc =
        (match specScan cs QMode.plain cur acc.reverse with
         | none => Except.error (unterminatedMsg s)
         | some ts => Except.ok ts)) ∧
      (splitCmdLoop s cs true false cur acc =
        (match specScan cs QMode.insingle cur acc.reverse with
         | none => Except.error (unterminatedMsg s)
         | some ts => Except.ok ts)) ∧
      (splitCmdLoop s cs false true cur acc =
        (match specScan cs QMode.indouble cur acc.reverse with
         | none => Except.error (unterminatedMsg s)
         | some ts => Except.ok ts)) := by
  intro n
  induction n with
  | zero =>
    intro cs hcs cur acc
    have h0 : cs = [] := List.eq_nil_of_length_eq_zero (Nat.le_zero.mp hcs)
    subst h0
    refine ⟨splitLoop_end_plain s cur acc, ?_, ?_⟩ <;> simp [splitCmdLoop, specScan]
  | succ n ih =>
    intro cs hcs cur acc
    cases cs with
    | nil =>
      refine ⟨splitLoop_end_plain s cur acc, ?_, ?_⟩ <;> simp [splitCmdLoop, specScan]
    | cons c rest =>
      have hrest : rest.length ≤ n := by
        simp only [List.length_cons] at hcs
        omega
      refine ⟨?_, ?_, ?_⟩
      · -- plain mode
        rw [splitLoop_step_plain, specScan_step_plain]
        by_cases h1 : c = squoteChar
        · rw [if_pos h1, if_pos h1]
          exact (ih rest hrest cur acc).2.1
        · rw [if_neg h1, if_neg h1]
          by_cases h2 : c = dquoteChar
          · rw [if_pos h2, if_pos h2]
            exact (ih rest hrest cur acc).2.2
          · rw [if_neg h2, if_neg h2]
            by_cases h3 : c = ' ' ∨ c = '\t'
            · rw [if_pos h3, if_pos h3]
              by_cases hc : cur = ""
              · subst hc
                rw [if_neg (by simp), if_pos rfl]
                exact (ih rest hrest "" acc).1
              · rw [if_pos ((str_length_pos_iff cur).mpr hc), if_neg hc]
                rw [(ih rest hrest "" (acc ++ [cur])).1]
                simp
            · rw [if_neg h3, if_neg h3]
              exact (ih rest hrest (cur.push c) acc).1
      · -- single-quote mode
        rw [splitLoop_step_single, specScan_step_single]
        by_cases h1 : c = squoteChar
        · rw [if_pos h1, if_pos h1]
          exact (ih rest hrest cur acc).1
        · rw [if_neg h1, if_neg h1]
          exact (ih rest hrest (cur.push c) acc).2.1
      · -- double-quote mode
        cases rest with
        | nil =>
          rw [splitLoop_step_double1, specScan_step_double1]
          by_cases h1 : c = dquoteChar
          · rw [if_pos h1, if_pos h1]
            exact (ih [] (by omega) cur acc).1
          · rw [if_neg h1, if_neg h1]
            exact (ih [] (by omega) (cur.push c) acc).2.2
        | cons d rest2 =>
          have hrest2 : rest2.length ≤ n := by
            simp only [List.length_cons] at hrest ⊢
            omega
          rw [splitLoop_step_double2, specScan_step_double2]
          by_cases h1 : c = dquoteChar
          · rw [if_pos h1, if_pos h1]
            exact (ih (d :: rest2) hrest cur acc).1
          · rw [if_neg h1, if_neg h1]
            by_cases h2 : c = bslashChar
            · rw [if_pos h2, if_pos h2]
              by_cases h3 : d = dquoteChar ∨ d = bslashChar
              · rw [if_pos h3, if_pos h3]
                exact (ih rest2 hrest2 (cur.push d) acc).2.2
              · rw [if_neg h3, if_neg h3]
                exact (ih (d :: rest2) hrest (cur.push c) acc).2.2
            · rw [if_neg h2, if_neg h2]
              exact (ih (d :: rest2) hrest (cur.push c) acc).2.2

/-- C10: `splitCommandTemplate` refines its specification-level contract
`specSplitCommand`: it throws the unterminated-quote error exactly when
the scan of the template ends inside a single or double quote, and on
every other input it returns the template split on unquoted spaces and
tabs with quote characters removed, single-quoted content taken
literally, and only backslash-doublequote and backslash-backslash
unescaped inside double quotes. -/
theorem claim10_split_command_template_spec (s : String) :
    splitCommandTemplate s =
      (match specSplitCommand s with
       | none => Except.error (unterminatedMsg s)
       | some ts => Except.ok ts) :=
  (splitLoop_eq_spec s s.toList.length s.toList (Nat.le_refl _) "" []).1

end AgentsMcp
